import Mathlib

set_option maxHeartbeats 1000000

/-!
Shallow embedding of the NEMU simple debugger monitor
(src/nemu/src/monitor/sdb/sdb.c).

The monitor's external collaborators (the expression evaluator `expr`,
the memory reader `vaddr_read`, the watchpoint pool entry points
`new_wp` / `delete_watchpoint`, and the execution engine `cpu_exec`)
are not part of this translation unit; they are modelled as an oracle
record `ExtEnv`.  Every observable action of the monitor (calls into the
collaborators, `printf` output, line reads) is recorded in an event
trace, and each command handler is a pure function from its argument
tail to `(trace, status)`, mirroring the C handlers' `int` return value.

Machine integers: `word_t` is 32 bits wide; unsigned values are `Nat`
taken modulo `2 ^ 32` at the points where C performs the conversion,
and the `uint8_t` truncation in `cmd_x` is `% 256`.  `int` values that
the code passes around (step counts, watchpoint ids, statuses) are
`Int`.
-/

/-- One observable action of the monitor: a call into an external
collaborator, a `printf`, a line read, or a point where the C program's
behaviour is undefined (`ub`, e.g. passing a null pointer to `strcmp`). -/
inductive Event where
  | cpu_exec : Int → Event
  | print : String → Event
  | isa_reg_display : Event
  | show_watchpoint : Event
  | vaddr_read : Nat → Event
  | new_wp : Option String → Nat → Event
  | delete_watchpoint : Int → Event
  | readLine : Event
  | set_nemu_quit : Event
  | ub : Event
deriving DecidableEq

/-- The external collaborators consumed by sdb.c, as black-box oracles:
`expr` returns an (unsigned word, success flag) pair as in the spec's
Evaluator Bridge contract; `vaddr_read` is the one-byte memory read
(we record only the value, truncation to `uint8_t` happens at the use
site); `delete_watchpoint` returns the C `int` result tested against 1;
`new_wp` returns the `NO` field of the allocated watchpoint. -/
structure ExtEnv where
  expr : Option String → Nat × Bool
  vaddr_read : Nat → Nat
  delete_watchpoint : Int → Int
  new_wp : Option String → Nat → Int

/-- C `isspace` for the characters `sscanf` skips before `%d`. -/
def isSpaceChar (c : Char) : Bool :=
  c == ' ' || c == '\t' || c == '\n' || c == '\r' || c == '\x0b' || c == '\x0c'

/-- Value of a list of decimal digit characters. -/
def digitsVal (ds : List Char) : Nat :=
  ds.foldl (fun acc c => acc * 10 + (c.toNat - 48)) 0

/-- Model of `sscanf(s, "%d", &n)`: skip whitespace, optional sign,
then a nonempty run of decimal digits; `none` when no integer is
matched (in which case the C code leaves `n` unchanged). -/
def scanfD (s : String) : Option Int :=
  match s.data.dropWhile (fun c => isSpaceChar c) with
  | '-' :: r =>
      let ds := r.takeWhile Char.isDigit
      if ds.isEmpty then none else some (-(digitsVal ds : Int))
  | '+' :: r =>
      let ds := r.takeWhile Char.isDigit
      if ds.isEmpty then none else some ((digitsVal ds : Int))
  | cs =>
      let ds := cs.takeWhile Char.isDigit
      if ds.isEmpty then none else some ((digitsVal ds : Int))

/-- Lowercase hexadecimal digit, as `printf %x` produces. -/
def hexDigit (n : Nat) : Char :=
  if n < 10 then Char.ofNat (48 + n) else Char.ofNat (87 + n)

/-- `printf("%02x", b)` for a byte value `b < 256`: exactly two
lowercase hexadecimal digits. -/
def hex2 (b : Nat) : String :=
  String.mk [hexDigit (b / 16 % 16), hexDigit (b % 16)]

/-- Helper for the `strtok` model: flush the (reversed) accumulator. -/
def pushTok (acc : List Char) (toks : List String) : List String :=
  if acc.isEmpty then toks else String.mk acc.reverse :: toks

/-- Split a character list into the maximal nonempty runs separated by
`' '`, as repeated `strtok(·, " ")` calls enumerate them. -/
def tokAux : List Char → List Char → List String
  | [], acc => pushTok acc []
  | c :: cs, acc => if c == ' ' then pushTok acc (tokAux cs []) else tokAux cs (c :: acc)

/-- The token sequence `strtok(args, " ")`, `strtok(NULL, " ")`, ...
yields on a handler's argument tail (`none` models a NULL `args`, for
which the continued tokenization finds no further token). -/
def strtokArgs : Option String → List String
  | none => []
  | some s => tokAux s.data []

/-- The line-splitting done at the top of `sdb_mainloop`: `strtok` the
first space-delimited token out as the command; the argument tail is
the raw text starting right after the token's terminator, or NULL
(`none`) when that position is at or past the end of the line.  A line
with no token at all (empty or all spaces) yields `none` and the loop
just continues. -/
def splitLine (line : String) : Option (String × Option String) :=
  let cs := line.data
  let rest := cs.dropWhile (fun c => c == ' ')
  if rest.isEmpty then none
  else
    let lead := cs.takeWhile (fun c => c == ' ')
    let cmd := rest.takeWhile (fun c => c != ' ')
    let pos := lead.length + cmd.length + 1
    some (String.mk cmd, if cs.length ≤ pos then none else some (String.mk (cs.drop pos)))

/-- Reinterpret a 32-bit word as the signed value `printf("%d", ·)`
shows after the C conversion `word_t → sword_t`. -/
def toSigned32 (v : Nat) : Int :=
  if v % 2 ^ 32 < 2 ^ 31 then ((v % 2 ^ 32 : Nat) : Int)
  else ((v % 2 ^ 32 : Nat) : Int) - 2 ^ 32

/-- `cmd_c`: `cpu_exec(-1)`, status 0. -/
def cmd_c (_E : ExtEnv) (_args : Option String) : List Event × Int :=
  ([Event.cpu_exec (-1)], 0)

/-- `cmd_q`: set `nemu_state.state = NEMU_QUIT` and return -1. -/
def cmd_q (_E : ExtEnv) (_args : Option String) : List Event × Int :=
  ([Event.set_nemu_quit], -1)

/-- The `(name, description)` columns of `cmd_table`, usable before the
handlers are defined (in the C file `cmd_help` reads the same table it
sits in, via forward declarations). -/
def cmd_names_descs : List (String × String) :=
  [("help", "Display information about all supported commands"),
   ("c", "Continue the execution of the program"),
   ("q", "Exit NEMU"),
   ("si", "Step through N instructions"),
   ("info", "Show the infomation of reg and watch point"),
   ("x", "Scan the memory"),
   ("p", "Expressions evaluate"),
   ("w", "Set the watch point"),
   ("d", "delete the watch point")]

/-- `cmd_help`: with no argument list every table entry; with an
argument print the matching entry or an unknown-command message. -/
def cmd_help (_E : ExtEnv) (args : Option String) : List Event × Int :=
  match strtokArgs args with
  | [] => (cmd_names_descs.map (fun c => Event.print (c.1 ++ " - " ++ c.2 ++ "\n")), 0)
  | arg :: _ =>
      match cmd_names_descs.find? (fun c => c.1 == arg) with
      | some c => ([Event.print (c.1 ++ " - " ++ c.2 ++ "\n")], 0)
      | none => ([Event.print ("Unknown command \x27" ++ arg ++ "\x27\n")], 0)

/-- `cmd_si`: `n = 1` when `args` is NULL, otherwise `n` starts at 0
and `sscanf(args, "%d", &n)` overwrites it only on a successful match;
then `cpu_exec(n)`. -/
def cmd_si (_E : ExtEnv) (args : Option String) : List Event × Int :=
  let n : Int :=
    match args with
    | none => 1
    | some s => (scanfD s).getD 0
  ([Event.cpu_exec n], 0)

/-- `cmd_info`: `strcmp(args, "r")` / `strcmp(args, "w")` on the raw
argument tail; any other tail prints an unknown-parameter message.
When `args` is NULL the very first `strcmp` dereferences a null
pointer: undefined behaviour, recorded as `Event.ub`. -/
def cmd_info (_E : ExtEnv) (args : Option String) : List Event × Int :=
  match args with
  | none => ([Event.ub], 0)
  | some s =>
      if s = "r" then ([Event.isa_reg_display], 0)
      else if s = "w" then ([Event.show_watchpoint], 0)
      else ([Event.print "Unknow parma\n"], 0)

/-- `cmd_x`: take the first two tokens of the argument tail; with
fewer, print an unknown-parameter message.  Otherwise parse the count
(`n` stays 0 on a failed `sscanf`), call `expr` on the second token —
note the returned success flag is never consulted — and read and print
`4 * n` single bytes starting at the evaluated address. -/
def cmd_x (E : ExtEnv) (args : Option String) : List Event × Int :=
  match strtokArgs args with
  | p1 :: p2 :: _ =>
      let n : Int := (scanfD p1).getD 0
      let addr : Nat := (E.expr (some p2)).1 % 2 ^ 32
      ((List.range (4 * n).toNat).flatMap (fun i =>
          [Event.vaddr_read ((addr + i) % 2 ^ 32),
           Event.print (hex2 (E.vaddr_read ((addr + i) % 2 ^ 32) % 256) ++ " ")])
        ++ [Event.print "\n"], 0)
  | _ => ([Event.print "Unknow parma\n"], 0)

/-- `cmd_p`: evaluate the whole argument tail; on success print the
value through the signed reinterpretation (`sword_t` with `%d`), on
failure print the error message. -/
def cmd_p (E : ExtEnv) (args : Option String) : List Event × Int :=
  let r := E.expr args
  if r.2 then ([Event.print ("val = " ++ toString (toSigned32 r.1) ++ "\n")], 0)
  else ([Event.print "expr false, please correctly input again!\n"], 0)

/-- `cmd_w`: evaluate the whole argument tail; only when the success
flag holds, call `new_wp(args, val)` and print the new id; on failure
nothing happens. -/
def cmd_w (E : ExtEnv) (args : Option String) : List Event × Int :=
  let r := E.expr args
  if r.2 then
    let v := r.1 % 2 ^ 32
    ([Event.new_wp args v,
      Event.print ("watch point " ++ toString (E.new_wp args v) ++ " set succeed\n")], 0)
  else ([], 0)

/-- `cmd_d`: first token of the argument tail as the id (`n` stays 0
on a failed `sscanf`); `delete_watchpoint(n) == 1` prints success and
returns 0, otherwise prints failure and returns -1. -/
def cmd_d (E : ExtEnv) (args : Option String) : List Event × Int :=
  match strtokArgs args with
  | [] => ([Event.print "Unknow parma\n"], 0)
  | param :: _ =>
      let n : Int := (scanfD param).getD 0
      if E.delete_watchpoint n = 1 then
        ([Event.delete_watchpoint n, Event.print "delete succeed!\n"], 0)
      else
        ([Event.delete_watchpoint n, Event.print "delete failed, please input correct number!\n"], -1)

/-- One row of the static `cmd_table`. -/
structure CmdEntry where
  name : String
  description : String
  handler : ExtEnv → Option String → List Event × Int

/-- The static command registry of sdb.c, in declaration order. -/
def cmd_table : List CmdEntry :=
  [⟨"help", "Display information about all supported commands", cmd_help⟩,
   ⟨"c", "Continue the execution of the program", cmd_c⟩,
   ⟨"q", "Exit NEMU", cmd_q⟩,
   ⟨"si", "Step through N instructions", cmd_si⟩,
   ⟨"info", "Show the infomation of reg and watch point", cmd_info⟩,
   ⟨"x", "Scan the memory", cmd_x⟩,
   ⟨"p", "Expressions evaluate", cmd_p⟩,
   ⟨"w", "Set the watch point", cmd_w⟩,
   ⟨"d", "delete the watch point", cmd_d⟩]

/-- The body of one `sdb_mainloop` iteration after a line is read:
split off the command token (`none`: empty line, just continue), look
it up by exact name in `cmd_table`, run the handler; the Bool says
whether the loop goes on (`handler(args) < 0` stops it).  An unknown
command prints the message and continues. -/
def sdb_step (E : ExtEnv) (line : String) : List Event × Bool :=
  match splitLine line with
  | none => ([], true)
  | some (cmd, args) =>
      match cmd_table.find? (fun c => c.name == cmd) with
      | some c =>
          let r := c.handler E args
          if r.2 < 0 then (r.1, false) else (r.1, true)
      | none => ([Event.print ("Unknown command \x27" ++ cmd ++ "\x27\n")], true)

/-- The interactive loop of `sdb_mainloop` over a list of input lines
(the list ending models `rl_gets` returning NULL at end of input). -/
def sdb_loop (E : ExtEnv) : List String → List Event
  | [] => []
  | line :: rest =>
      let s := sdb_step E line
      Event.readLine :: (if s.2 then s.1 ++ sdb_loop E rest else s.1)

/-- `sdb_mainloop`: in batch mode exactly `cmd_c(NULL)` and return;
otherwise the interactive loop. -/
def sdb_mainloop (E : ExtEnv) (is_batch_mode : Bool) (input : List String) : List Event :=
  if is_batch_mode then (cmd_c E none).1 else sdb_loop E input

/-- Number of one-byte memory reads in a trace. -/
def countReads (evs : List Event) : Nat :=
  evs.countP (fun ev => match ev with | Event.vaddr_read _ => true | _ => false)

/-- Whether a trace contains a watchpoint allocation. -/
def hasAlloc (evs : List Event) : Bool :=
  evs.any (fun ev => match ev with | Event.new_wp _ _ => true | _ => false)

/-- Oracle with a failing evaluator and a failing `delete_watchpoint`. -/
def extD : ExtEnv := ⟨fun _ => (0, false), fun _ => 0, fun _ => 0, fun _ _ => 0⟩

/-- Oracle with a failing evaluator and memory constantly 0xab. -/
def extX : ExtEnv := ⟨fun _ => (0, false), fun _ => 171, fun _ => 0, fun _ _ => 0⟩

/-- Oracle whose evaluator succeeds with value 2. -/
def extP : ExtEnv := ⟨fun _ => (2, true), fun _ => 0, fun _ => 0, fun _ _ => 0⟩

/-- Oracle whose evaluator succeeds with value 0 and whose memory read
at address `a` returns `a`. -/
def extC5 : ExtEnv := ⟨fun _ => (0, true), fun a => a, fun _ => 0, fun _ _ => 0⟩

/-- Claim C6: `si` with no argument advances the execution engine by
exactly one step, and `si` with a non-numeric argument advances it by
exactly zero steps; the handler returns status 0 in both cases, so
nothing raises and the session continues. -/
theorem cmd_si_default_one_nonnumeric_zero (E : ExtEnv) (s : String)
    (h : scanfD s = none) :
    cmd_si E none = ([Event.cpu_exec 1], 0) ∧
    cmd_si E (some s) = ([Event.cpu_exec 0], 0) := by
  refine ⟨rfl, ?_⟩
  simp [cmd_si, h]

theorem cmd_si_default_one_nonnumeric_zero_witness :
    cmd_si extD none = ([Event.cpu_exec 1], 0) ∧
    cmd_si extD (some "abc") = ([Event.cpu_exec 0], 0) :=
  cmd_si_default_one_nonnumeric_zero extD "abc" rfl

/-- Claim C10: when the `si` argument parses to a negative integer `n`,
the handler passes `n` unchanged to the execution engine's `cpu_exec`
call; the contract that a negative count means running unboundedly
belongs to the external engine. -/
theorem cmd_si_negative_passthrough (E : ExtEnv) (s : String) (n : Int)
    (h : scanfD s = some n) (hneg : n < 0) :
    cmd_si E (some s) = ([Event.cpu_exec n], 0) := by
  simp [cmd_si, h]

theorem cmd_si_negative_passthrough_witness :
    cmd_si extD (some "-3") = ([Event.cpu_exec (-3)], 0) :=
  cmd_si_negative_passthrough extD "-3" (-3) rfl (by decide)

/-- Claim C9: in batch mode the driver performs exactly one unbounded
`cpu_exec(-1)` call and returns; no input line is ever read. -/
theorem sdb_mainloop_batch_single_exec (E : ExtEnv) (input : List String) :
    sdb_mainloop E true input = [Event.cpu_exec (-1)] ∧
    (sdb_mainloop E true input).count Event.readLine = 0 := ⟨rfl, rfl⟩

/-- Claim C7: when the evaluator succeeds, `p` prints "val = v" with the
value under the signed 32-bit reinterpretation; when the evaluator
fails, the whole output is the error message, so no numeric result is
ever printed. -/
theorem cmd_p_signed_success_error_failure (E : ExtEnv) (args : Option String) :
    ((E.expr args).2 = true →
      (cmd_p E args).1 =
        [Event.print ("val = " ++ toString (toSigned32 (E.expr args).1) ++ "\n")]) ∧
    ((E.expr args).2 = false →
      (cmd_p E args).1 = [Event.print "expr false, please correctly input again!\n"]) := by
  constructor <;> intro h <;> simp [cmd_p, h]

theorem cmd_p_signed_success_error_failure_witness :
    (cmd_p extP (some "1+1")).1 = [Event.print "val = 2\n"] ∧
    (cmd_p extD (some "???")).1 = [Event.print "expr false, please correctly input again!\n"] :=
  ⟨(cmd_p_signed_success_error_failure extP (some "1+1")).1 rfl,
   (cmd_p_signed_success_error_failure extD (some "???")).2 rfl⟩

/-- Claim C3: `w` allocates a watchpoint iff the evaluator reports
success; on success the allocation receives the original unparsed
argument text and the unsigned evaluated value, and the new id is
printed; on failure the handler produces no event at all. -/
theorem cmd_w_allocates_iff_eval_ok (E : ExtEnv) (args : Option String) :
    (hasAlloc (cmd_w E args).1 = true ↔ (E.expr args).2 = true) ∧
    ((E.expr args).2 = true →
      (cmd_w E args).1 =
        [Event.new_wp args ((E.expr args).1 % 2 ^ 32),
         Event.print ("watch point " ++
           toString (E.new_wp args ((E.expr args).1 % 2 ^ 32)) ++ " set succeed\n")]) ∧
    ((E.expr args).2 = false → (cmd_w E args).1 = []) := by
  cases hok : (E.expr args).2 <;> simp [cmd_w, hok, hasAlloc]

theorem cmd_w_allocates_iff_eval_ok_witness :
    (cmd_w extP (some "1+1")).1 =
      [Event.new_wp (some "1+1") 2, Event.print "watch point 0 set succeed\n"] :=
  (cmd_w_allocates_iff_eval_ok extP (some "1+1")).2.1 rfl

/-- Claim C4 (code bug): for `info` with a supplied argument other than
`r` or `w` the handler prints the unknown-parameter message and the
session continues, but with no argument at all the code reaches
`strcmp(NULL, "r")` — a null-pointer dereference, undefined behaviour —
instead of the unknown-parameter report the spec requires. -/
theorem cmd_info_missing_arg_null_strcmp (E : ExtEnv) :
    cmd_info E none = ([Event.ub], 0) ∧
    sdb_loop E ["info"] = [Event.readLine, Event.ub] ∧
    cmd_info E (some "x") = ([Event.print "Unknow parma\n"], 0) := ⟨rfl, rfl, rfl⟩

/-- Claim C1 counterexample: with no active watchpoint numbered 5, the
line `d 5` makes `cmd_d` print the failure message and return -1, and
`sdb_mainloop` exits on the negative handler status: the following line
`help` is never read, so the session does not continue. -/
theorem cmd_d_failure_terminates_session_cex :
    (cmd_d extD (some "5")).2 = -1 ∧
    sdb_loop extD ["d 5", "help"] =
      [Event.readLine, Event.delete_watchpoint 5,
       Event.print "delete failed, please input correct number!\n"] := ⟨rfl, rfl⟩

/-- Claim C1 (amended): when the `d` command's deletion fails, the
handler reports the failure and returns the negative status -1, and the
REPL loop treats the negative status as terminal: it exits without
reading further input (the hosting process is not aborted; the loop
merely returns). -/
theorem cmd_d_failure_reports_and_terminates (E : ExtEnv) (line : String)
    (rest : List String) (args : Option String) (param : String)
    (ps : List String) (n : Int)
    (hsplit : splitLine line = some ("d", args))
    (htok : strtokArgs args = param :: ps)
    (hn : (scanfD param).getD 0 = n)
    (hfail : E.delete_watchpoint n ≠ 1) :
    cmd_d E args =
      ([Event.delete_watchpoint n,
        Event.print "delete failed, please input correct number!\n"], -1) ∧
    sdb_loop E (line :: rest) =
      [Event.readLine, Event.delete_watchpoint n,
       Event.print "delete failed, please input correct number!\n"] := by
  have hd : cmd_d E args =
      ([Event.delete_watchpoint n,
        Event.print "delete failed, please input correct number!\n"], -1) := by
    simp [cmd_d, htok, hn, hfail]
  have hfind : cmd_table.find? (fun c => c.name == "d") =
      some ⟨"d", "delete the watch point", cmd_d⟩ := rfl
  refine ⟨hd, ?_⟩
  simp [sdb_loop, sdb_step, hsplit, hfind, hd]

theorem cmd_d_failure_reports_and_terminates_witness :
    cmd_d extD (some "5") =
      ([Event.delete_watchpoint 5,
        Event.print "delete failed, please input correct number!\n"], -1) ∧
    sdb_loop extD ["d 5"] =
      [Event.readLine, Event.delete_watchpoint 5,
       Event.print "delete failed, please input correct number!\n"] :=
  cmd_d_failure_reports_and_terminates extD "d 5" [] (some "5") "5" [] 5
    rfl rfl rfl (by decide)

/-- Claim C2 (code bug): `cmd_x` never consults the success flag the
evaluator returns; with an evaluator that reports failure on `x 2 bad`
the handler still performs 8 one-byte reads (at the failed evaluation's
returned value) and prints them, and no error message is produced. -/
theorem cmd_x_eval_failure_still_reads :
    (extX.expr (some "bad")).2 = false ∧
    (cmd_x extX (some "2 bad")).1 =
      [Event.vaddr_read 0, Event.print "ab ", Event.vaddr_read 1, Event.print "ab ",
       Event.vaddr_read 2, Event.print "ab ", Event.vaddr_read 3, Event.print "ab ",
       Event.vaddr_read 4, Event.print "ab ", Event.vaddr_read 5, Event.print "ab ",
       Event.vaddr_read 6, Event.print "ab ", Event.vaddr_read 7, Event.print "ab ",
       Event.print "\n"] := ⟨rfl, by decide⟩

/-- Each (read, print) pair contributed per index holds exactly one
memory read, so the read count of the scan body equals the index-list
length. -/
theorem countReads_read_print_pairs (a : Nat → Nat) (s : Nat → String)
    (l : List Nat) :
    countReads (l.flatMap (fun i => [Event.vaddr_read (a i), Event.print (s i)])) =
      l.length := by
  induction l with
  | nil => rfl
  | cons x xs ih =>
      simp only [List.flatMap_cons, countReads, List.countP_append,
        List.countP_cons] at *
      simp [ih]
      omega

/-- Claim C5: when the count token parses to a positive `n` and the
address expression is handed to the evaluator, `cmd_x` reads exactly
`4 * n` bytes one byte at a time starting at the evaluated address and
prints each as two hexadecimal digits followed by a space; `hex2`
always renders exactly two characters. -/
theorem cmd_x_positive_count_reads (E : ExtEnv) (s p1 p2 : String)
    (ps : List String) (n : Int)
    (htok : strtokArgs (some s) = p1 :: p2 :: ps)
    (hn : scanfD p1 = some n) (hpos : 0 < n) :
    (cmd_x E (some s)).1 =
      (List.range (4 * n).toNat).flatMap (fun i =>
        [Event.vaddr_read (((E.expr (some p2)).1 % 2 ^ 32 + i) % 2 ^ 32),
         Event.print (hex2 (E.vaddr_read
           (((E.expr (some p2)).1 % 2 ^ 32 + i) % 2 ^ 32) % 256) ++ " ")])
      ++ [Event.print "\n"] ∧
    countReads (cmd_x E (some s)).1 = 4 * n.toNat ∧
    (∀ b : Nat, (hex2 b).length = 2) := by
  have h1 : (cmd_x E (some s)).1 =
      (List.range (4 * n).toNat).flatMap (fun i =>
        [Event.vaddr_read (((E.expr (some p2)).1 % 2 ^ 32 + i) % 2 ^ 32),
         Event.print (hex2 (E.vaddr_read
           (((E.expr (some p2)).1 % 2 ^ 32 + i) % 2 ^ 32) % 256) ++ " ")])
      ++ [Event.print "\n"] := by
    simp [cmd_x, htok, hn]
  refine ⟨h1, ?_, fun b => rfl⟩
  have h2 := countReads_read_print_pairs
    (fun i => ((E.expr (some p2)).1 % 2 ^ 32 + i) % 2 ^ 32)
    (fun i => hex2 (E.vaddr_read (((E.expr (some p2)).1 % 2 ^ 32 + i) % 2 ^ 32) % 256) ++ " ")
    (List.range (4 * n).toNat)
  rw [h1]
  unfold countReads at h2 ⊢
  rw [List.countP_append, h2, List.length_range]
  have hone : List.countP
      (fun ev => match ev with | Event.vaddr_read _ => true | _ => false)
      [Event.print "\n"] = 0 := rfl
  rw [hone]
  omega

theorem cmd_x_positive_count_reads_witness :
    ((cmd_x extC5 (some "2 0x0")).1 =
      (List.range (4 * (2 : Int)).toNat).flatMap (fun i =>
        [Event.vaddr_read (((extC5.expr (some "0x0")).1 % 2 ^ 32 + i) % 2 ^ 32),
         Event.print (hex2 (extC5.vaddr_read
           (((extC5.expr (some "0x0")).1 % 2 ^ 32 + i) % 2 ^ 32) % 256) ++ " ")])
      ++ [Event.print "\n"]) ∧
    countReads (cmd_x extC5 (some "2 0x0")).1 = 8 :=
  ⟨(cmd_x_positive_count_reads extC5 "2 0x0" "2" "0x0" [] 2 rfl rfl (by decide)).1,
   (cmd_x_positive_count_reads extC5 "2 0x0" "2" "0x0" [] 2 rfl rfl (by decide)).2.1⟩

/-- In the registry, looking an entry's own name up finds exactly that
entry: the nine registered names are pairwise distinct, so dispatch by
exact name match is unambiguous. -/
theorem cmd_table_find_name (e : CmdEntry) (he : e ∈ cmd_table) :
    cmd_table.find? (fun c => c.name == e.name) = some e := by
  fin_cases he <;> rfl

/-- Claim C8: a line whose first token matches no registered verb makes
the loop print the unknown-command message naming that token and
continue with the remaining input; a line whose first token is a
registered verb runs exactly that verb's handler on the argument tail
(the loop then continues unless the handler returned a negative
status). -/
theorem sdb_loop_dispatch (E : ExtEnv) (line : String) (rest : List String)
    (cmd : String) (args : Option String)
    (hsplit : splitLine line = some (cmd, args)) :
    ((∀ e ∈ cmd_table, e.name ≠ cmd) →
      sdb_loop E (line :: rest) =
        Event.readLine ::
          Event.print ("Unknown command \x27" ++ cmd ++ "\x27\n") ::
            sdb_loop E rest) ∧
    (∀ e ∈ cmd_table, e.name = cmd →
      sdb_loop E (line :: rest) =
        Event.readLine ::
          (if (e.handler E args).2 < 0 then (e.handler E args).1
           else (e.handler E args).1 ++ sdb_loop E rest)) := by
  constructor
  · intro hnone
    have hfind : cmd_table.find? (fun c => c.name == cmd) = none := by
      rw [List.find?_eq_none]
      intro e he
      simpa using hnone e he
    simp [sdb_loop, sdb_step, hsplit, hfind]
  · intro e he hname
    subst hname
    have hfind := cmd_table_find_name e he
    by_cases hr : (e.handler E args).2 < 0 <;>
      simp [sdb_loop, sdb_step, hsplit, hfind, hr]

theorem sdb_loop_dispatch_witness :
    sdb_loop extD ["foo", "q"] =
      [Event.readLine, Event.print "Unknown command \x27foo\x27\n",
       Event.readLine, Event.set_nemu_quit] := by
  have h := (sdb_loop_dispatch extD "foo" ["q"] "foo" none rfl).1 (by decide)
  rw [h]
  rfl
